import Mathlib

/-!
Verification of `internal/poll/poll.go` from the subnet-cli repository.

The Go source defines a `Poller` with a root context and an interval, and a
method `Poll(ctx, check)` that repeatedly invokes `check` until it reports
done, until the root context fires (returning `ErrAborted`), or until the
operation context fires (returning that context's own error).

We embed the code as a timed operational model.  Time is a logical clock in
nanoseconds (`Nat`).  A Go `context.Context` is modelled by the instant at
which it fires (if ever) and the error value its `Err()` method returns once
fired.  The `time.Ticker` is modelled by the instant from which its next tick
is available: `time.NewTicker(1)` makes the first tick available at instant 1,
and `tc.Reset(interval)` makes the next tick available `interval` after the
reset.  Non-blocking statements take zero logical time; the only blocking
point is the `select`, which resolves at the earliest instant at which one of
its two cases (`<-pl.rootCtx.Done()` or `<-tc.C`) is ready, with an oracle
(`Schedule.pick`) breaking the tie when both are ready at the same instant,
mirroring Go's pseudo-random choice among ready cases.  The unbounded `for`
loop is modelled with fuel; running out of fuel yields the `running` outcome,
meaning the loop has not yet exited.  `time.Ticker.Reset` panics on a
non-positive duration, which the model records as the `panicked` outcome.
-/

/-- Error values that can flow through the polling loop: `aborted` is the
package-level `ErrAborted`; `canceled` and `deadlineExceeded` are the two
errors a Go context's `Err()` can return; `checkFailure n` stands for an
arbitrary error returned by the caller's `check` predicate. -/
inductive GoError where
  | aborted
  | canceled
  | deadlineExceeded
  | checkFailure (n : Nat)
deriving DecidableEq, Repr

/-- Model of a `context.Context`: the instant at which it fires (none if it
never fires) and the error its `Err()` returns once it has fired. -/
structure CtxModel where
  fireTime : Option Nat
  err : GoError
deriving DecidableEq, Repr

/-- Whether the context has fired at instant `t` (`Done` channel closed). -/
def CtxModel.firedAt (c : CtxModel) (t : Nat) : Bool :=
  match c.fireTime with
  | none => false
  | some ft => ft ≤ t

/-- The value of the context's `Err()` method read at instant `t`. -/
def CtxModel.errAt (c : CtxModel) (t : Nat) : Option GoError :=
  if c.firedAt t then some c.err else none

/-- The `poller` struct from the source: a root context and an interval.
The interval is a `time.Duration`, a signed integer count of nanoseconds. -/
structure Poller where
  rootCtx : CtxModel
  interval : Int
deriving DecidableEq, Repr

/-- The `New` constructor: it stores both arguments without any validation. -/
def New (rootCtx : CtxModel) (interval : Int) : Poller :=
  { rootCtx := rootCtx, interval := interval }

/-- Oracle resolving everything the environment decides during one `Poll`
call: the wall-clock duration of the `i`-th invocation of `check`, its
returned `(done, err)` pair, and the tie-break for the `i`-th `select` when
both cases are ready at the same instant (`true` picks the root case). -/
structure Schedule where
  checkDur : Nat → Nat
  checkRes : Nat → Bool × Option GoError
  pick : Nat → Bool

/-- Which statement caused `Poll` to return. -/
inductive ExitKind where
  | selectRoot
  | loopCond
  | success
deriving DecidableEq, Repr

/-- Outcome of running the loop with a given amount of fuel: still
`running` (fuel exhausted before the loop exited), `panicked`
(`tc.Reset` was called with a non-positive interval), or `returned` with
the elapsed time, the returned error and the exit statement. -/
inductive Outcome where
  | running
  | panicked
  | returned (took : Nat) (err : Option GoError) (kind : ExitKind)
deriving DecidableEq, Repr

/-- Result of a (fuel-bounded) run: the outcome, the instants at which the
successive `check` invocations started, and the warning log entries emitted
for failed checks (iteration index paired with the check's error). -/
structure PollResult where
  outcome : Outcome
  ticks : List Nat
  warns : List (Nat × GoError)
deriving DecidableEq, Repr

/-- The instant at which the `select` statement resolves, entered at instant
`now` with the next tick available from instant `tickReady`: the earliest
instant at or after `now` at which the root context has fired or the tick is
available. -/
def resolveTime (root : CtxModel) (now tickReady : Nat) : Nat :=
  match root.fireTime with
  | none => max now tickReady
  | some rf => max now (min rf tickReady)

/-- Which `select` case is taken, entered at instant `now` with the next tick
available from `tickReady`: at the instant the `select` resolves, the root
case is taken when only the root context is ready, and when both cases are
ready at that same instant the oracle `sched.pick i` breaks the tie, as Go
chooses pseudo-randomly among ready cases. -/
def selectRootPicked (root : CtxModel) (sched : Schedule)
    (now tickReady i : Nat) : Bool :=
  let r := resolveTime root now tickReady
  if root.firedAt r && decide (tickReady ≤ r) then sched.pick i
  else root.firedAt r

/-- The body of `Poll` from the source, one constructor per statement:

for `pl.rootCtx.Err() == nil && ctx.Err() == nil` — loop condition at `now`;
on exit, `err = ctx.Err()`, overridden by `ErrAborted` if `pl.rootCtx.Err()`
is non-nil.  Inside the loop, `select` waits on `pl.rootCtx.Done()` and
`tc.C`; the root case returns `ErrAborted` at once; the tick case runs
`tc.Reset(pl.interval)` (panicking if the interval is non-positive) and then
calls `check`.  A check error is logged as a warning and the loop continues;
`done = false` continues; `done = true` with no error returns `nil`. -/
def pollAux (pl : Poller) (ctx : CtxModel) (sched : Schedule) :
    Nat → Nat → Nat → Nat → PollResult
  | 0, _, _, _ => ⟨Outcome.running, [], []⟩
  | fuel + 1, now, tickReady, i =>
    if (pl.rootCtx.errAt now).isSome || (ctx.errAt now).isSome then
      ⟨Outcome.returned now
        (if (pl.rootCtx.errAt now).isSome then some GoError.aborted
         else ctx.errAt now) ExitKind.loopCond, [], []⟩
    else if selectRootPicked pl.rootCtx sched now tickReady i then
      ⟨Outcome.returned (resolveTime pl.rootCtx now tickReady)
        (some GoError.aborted) ExitKind.selectRoot, [], []⟩
    else if pl.interval ≤ 0 then
      ⟨Outcome.panicked, [], []⟩
    else
      let r := resolveTime pl.rootCtx now tickReady
      let tickReady' := r + pl.interval.toNat
      let checkEnd := r + sched.checkDur i
      match sched.checkRes i with
      | (_, some e) =>
        let rest := pollAux pl ctx sched fuel checkEnd tickReady' (i + 1)
        ⟨rest.outcome, r :: rest.ticks, (i, e) :: rest.warns⟩
      | (done, none) =>
        if done then
          ⟨Outcome.returned checkEnd none ExitKind.success, [r], []⟩
        else
          let rest := pollAux pl ctx sched fuel checkEnd tickReady' (i + 1)
          ⟨rest.outcome, r :: rest.ticks, rest.warns⟩

/-- The `Poll` method: starts the clock at 0, creates the ticker with
`time.NewTicker(1)` (first tick available at instant 1), runs the loop, and
returns the result together with the receiver's state after the call (the
body never assigns to the receiver's fields). -/
def poll (pl : Poller) (ctx : CtxModel) (sched : Schedule) (fuel : Nat) :
    PollResult × Poller :=
  (pollAux pl ctx sched fuel 0 1 0, pl)

/-- Receiver state threaded through a sequence of `Poll` calls on the same
`Poller`, each call with its own operation context, schedule and fuel. -/
def pollMany (pl : Poller) (calls : List (CtxModel × Schedule × Nat)) : Poller :=
  calls.foldl (fun p c => (poll p c.1 c.2.1 c.2.2).2) pl

/-- Closed form of the check start instants of an undisturbed run: from a
state whose select resolves at instant `t` with check index `i`, the checks
start at `t`, then `t + max interval (dur i)`, and so on — each check begins
`interval` after the previous one began, or immediately after the previous
one ended when the check outlasted the interval, because the ticker is reset
before the check runs. -/
def expTicks (interval : Nat) (dur : Nat → Nat) : Nat → Nat → Nat → List Nat
  | 0, _, _ => []
  | fuel + 1, t, i =>
    t :: expTicks interval dur fuel (t + max interval (dur i)) (i + 1)

/-- A context that never fires. -/
def neverCtx : CtxModel := ⟨none, GoError.canceled⟩

/-- A schedule whose checks are instantaneous and always report
`(done = false, err = nil)`. -/
def neverDoneSched : Schedule := ⟨fun _ => 0, fun _ => (false, none), fun _ => false⟩

theorem errAt_isSome (c : CtxModel) (t : Nat) :
    (c.errAt t).isSome = c.firedAt t := by
  by_cases h : c.firedAt t <;> simp [CtxModel.errAt, h]

theorem errAt_of_fired (c : CtxModel) (t : Nat) (h : c.firedAt t = true) :
    c.errAt t = some c.err := by
  simp [CtxModel.errAt, h]

/-- C1: whenever the loop exits on a non-success path at an instant at which
the root context has fired, the returned error is `ErrAborted`, whatever the
operation context did and in whatever order the signals fired. -/
theorem poll_root_fired_returns_aborted (pl : Poller) (ctx : CtxModel)
    (sched : Schedule) :
    ∀ fuel now tickReady i took err kind,
      (pollAux pl ctx sched fuel now tickReady i).outcome
        = Outcome.returned took err kind →
      kind ≠ ExitKind.success →
      pl.rootCtx.firedAt took = true →
      err = some GoError.aborted := by
  intro fuel
  induction fuel with
  | zero =>
    intro now tickReady i took err kind h _ _
    simp [pollAux] at h
  | succ fuel ih =>
    intro now tickReady i took err kind h hk hr
    simp only [pollAux] at h
    split at h
    · simp only [Outcome.returned.injEq] at h
      obtain ⟨hnow, herr, _⟩ := h
      rw [← herr]
      simp [errAt_isSome, hnow, hr]
    · split at h
      · simp only [Outcome.returned.injEq] at h
        exact h.2.1.symm
      · split at h
        · simp at h
        · split at h
          · exact ih _ _ _ _ _ _ h hk hr
          · split at h
            · simp only [Outcome.returned.injEq] at h
              exact absurd h.2.2.symm hk
            · exact ih _ _ _ _ _ _ h hk hr

theorem selectRootPicked_fired (root : CtxModel) (sched : Schedule)
    (now tickReady i : Nat)
    (h : selectRootPicked root sched now tickReady i = true) :
    root.firedAt (resolveTime root now tickReady) = true := by
  simp only [selectRootPicked] at h
  split at h
  · next hb => exact (Bool.and_eq_true_iff.mp hb).1
  · exact h

/-- C4: whenever the loop exits through its condition at an instant at which
the root context has not fired, the operation context has fired and the
returned error is exactly that context's own `Err()` value, unwrapped. -/
theorem poll_op_error_verbatim (pl : Poller) (ctx : CtxModel)
    (sched : Schedule) :
    ∀ fuel now tickReady i took err,
      (pollAux pl ctx sched fuel now tickReady i).outcome
        = Outcome.returned took err ExitKind.loopCond →
      pl.rootCtx.firedAt took = false →
      ctx.firedAt took = true ∧ err = some ctx.err := by
  intro fuel
  induction fuel with
  | zero =>
    intro now tickReady i took err h _
    simp [pollAux] at h
  | succ fuel ih =>
    intro now tickReady i took err h hr
    simp only [pollAux] at h
    split at h
    · next hc =>
      simp only [Outcome.returned.injEq] at h
      obtain ⟨hnow, herr, -⟩ := h
      rw [← hnow] at hr
      have hrs : (pl.rootCtx.errAt now).isSome = false := by
        rw [errAt_isSome]; exact hr
      have hcs : (ctx.errAt now).isSome = true := by
        rcases Bool.or_eq_true_iff.mp hc with h1 | h1
        · rw [hrs] at h1; exact absurd h1 (by simp)
        · exact h1
      have hfired : ctx.firedAt now = true := by rw [← errAt_isSome]; exact hcs
      refine ⟨hnow ▸ hfired, ?_⟩
      rw [← herr, if_neg (by simp [hrs]), errAt_of_fired ctx now hfired]
    · split at h
      · simp only [Outcome.returned.injEq] at h
        exact absurd h.2.2 (by simp)
      · split at h
        · simp at h
        · split at h
          · exact ih _ _ _ _ _ h hr
          · split at h
            · simp only [Outcome.returned.injEq] at h
              exact absurd h.2.2 (by simp)
            · exact ih _ _ _ _ _ h hr

theorem poll_op_error_verbatim_witness :
    (pollAux (New neverCtx 10) ⟨some 2, GoError.deadlineExceeded⟩
        neverDoneSched 3 0 1 0).outcome
      = Outcome.returned 11 (some GoError.deadlineExceeded) ExitKind.loopCond
    ∧ CtxModel.firedAt ⟨some 2, GoError.deadlineExceeded⟩ 11 = true
    ∧ some GoError.deadlineExceeded
        = some (CtxModel.err ⟨some 2, GoError.deadlineExceeded⟩) :=
  ⟨by decide,
   (poll_op_error_verbatim (New neverCtx 10) ⟨some 2, GoError.deadlineExceeded⟩
      neverDoneSched 3 0 1 0 11 (some GoError.deadlineExceeded)
      (by decide) (by decide)).1,
   (poll_op_error_verbatim (New neverCtx 10) ⟨some 2, GoError.deadlineExceeded⟩
      neverDoneSched 3 0 1 0 11 (some GoError.deadlineExceeded)
      (by decide) (by decide)).2⟩

/-- C7: when no invocation of `check` ever returns `(done = true, err = nil)`
— for instance a predicate that always fails — a completed `Poll` run never
carries a `nil` error: it returns only at an instant at which the root
context has fired (with `ErrAborted`) or the operation context has fired
(with that context's error). -/
theorem poll_never_done_never_nil (pl : Poller) (ctx : CtxModel)
    (sched : Schedule)
    (hcheck : ∀ j, (sched.checkRes j).2 = none → (sched.checkRes j).1 = false) :
    ∀ fuel now tickReady i took err kind,
      (pollAux pl ctx sched fuel now tickReady i).outcome
        = Outcome.returned took err kind →
      (pl.rootCtx.firedAt took = true ∧ err = some GoError.aborted)
      ∨ (ctx.firedAt took = true ∧ err = some ctx.err) := by
  intro fuel
  induction fuel with
  | zero =>
    intro now tickReady i took err kind h
    simp [pollAux] at h
  | succ fuel ih =>
    intro now tickReady i took err kind h
    simp only [pollAux] at h
    split at h
    · next hc =>
      simp only [Outcome.returned.injEq] at h
      obtain ⟨hnow, herr, -⟩ := h
      by_cases hrs : (pl.rootCtx.errAt now).isSome = true
      · left
        constructor
        · rw [← hnow, ← errAt_isSome]; exact hrs
        · rw [← herr, if_pos hrs]
      · right
        have hcs : (ctx.errAt now).isSome = true := by
          rcases Bool.or_eq_true_iff.mp hc with h1 | h1
          · exact absurd h1 hrs
          · exact h1
        have hfired : ctx.firedAt now = true := by rw [← errAt_isSome]; exact hcs
        refine ⟨hnow ▸ hfired, ?_⟩
        rw [← herr, if_neg hrs, errAt_of_fired ctx now hfired]
    · split at h
      · next hsel =>
        simp only [Outcome.returned.injEq] at h
        obtain ⟨hnow, herr, -⟩ := h
        left
        exact ⟨hnow ▸ selectRootPicked_fired pl.rootCtx sched now tickReady i hsel,
          herr.symm⟩
      · split at h
        · simp at h
        · split at h
          · exact ih _ _ _ _ _ _ h
          · next d heq =>
            split at h
            · next hd =>
              have := hcheck i
              rw [heq] at this
              simp [hd] at this
            · exact ih _ _ _ _ _ _ h

theorem poll_never_done_never_nil_witness :
    (∀ j, ((neverDoneSched.checkRes j).2 = none →
        (neverDoneSched.checkRes j).1 = false))
    ∧ ((pollAux (New neverCtx 10) ⟨some 3, GoError.canceled⟩ neverDoneSched
          3 0 1 0).outcome
        = Outcome.returned 11 (some GoError.canceled) ExitKind.loopCond)
    ∧ (CtxModel.firedAt ⟨some 3, GoError.canceled⟩ 11 = true
        ∧ some GoError.canceled
            = some (CtxModel.err ⟨some 3, GoError.canceled⟩)) :=
  ⟨fun _ _ => rfl, by decide,
   (poll_never_done_never_nil (New neverCtx 10) ⟨some 3, GoError.canceled⟩
      neverDoneSched (fun _ _ => rfl) 3 0 1 0 11 (some GoError.canceled)
      ExitKind.loopCond (by decide)).resolve_left (by decide)⟩

/-- C3: first conjunct — an iteration whose `check` returns a non-nil error
appends a warning log entry for that error and continues with the next
iteration, returning nothing at that point; second conjunct — a completed
run's returned error is always `nil`, `ErrAborted`, or the operation
context's own error, so an error produced by `check` is never surfaced as
`Poll`'s return error and never terminates polling on its own. -/
theorem poll_check_error_logged_and_transient (pl : Poller) (ctx : CtxModel)
    (sched : Schedule) :
    (∀ fuel now tickReady i d e,
      (pl.rootCtx.errAt now).isSome = false →
      (ctx.errAt now).isSome = false →
      selectRootPicked pl.rootCtx sched now tickReady i = false →
      0 < pl.interval →
      sched.checkRes i = (d, some e) →
      pollAux pl ctx sched (fuel + 1) now tickReady i
        = ⟨(pollAux pl ctx sched fuel
              (resolveTime pl.rootCtx now tickReady + sched.checkDur i)
              (resolveTime pl.rootCtx now tickReady + pl.interval.toNat)
              (i + 1)).outcome,
           resolveTime pl.rootCtx now tickReady
             :: (pollAux pl ctx sched fuel
                  (resolveTime pl.rootCtx now tickReady + sched.checkDur i)
                  (resolveTime pl.rootCtx now tickReady + pl.interval.toNat)
                  (i + 1)).ticks,
           (i, e)
             :: (pollAux pl ctx sched fuel
                  (resolveTime pl.rootCtx now tickReady + sched.checkDur i)
                  (resolveTime pl.rootCtx now tickReady + pl.interval.toNat)
                  (i + 1)).warns⟩)
    ∧ (∀ fuel now tickReady i took err kind,
      (pollAux pl ctx sched fuel now tickReady i).outcome
        = Outcome.returned took err kind →
      err = none ∨ err = some GoError.aborted ∨ err = some ctx.err) := by
  constructor
  · intro fuel now tickReady i d e h1 h2 hsel hiv hres
    have hnle : ¬ pl.interval ≤ 0 := not_le.mpr hiv
    simp only [pollAux, h1, h2, Bool.or_self, Bool.false_eq_true, if_false,
      hsel, hnle, hres]
  · intro fuel
    induction fuel with
    | zero =>
      intro now tickReady i took err kind h
      simp [pollAux] at h
    | succ fuel ih =>
      intro now tickReady i took err kind h
      simp only [pollAux] at h
      split at h
      · simp only [Outcome.returned.injEq] at h
        obtain ⟨-, herr, -⟩ := h
        rw [← herr]
        split
        · right; left; rfl
        · unfold CtxModel.errAt
          split
          · right; right; rfl
          · left; rfl
      · split at h
        · simp only [Outcome.returned.injEq] at h
          right; left; exact h.2.1.symm
        · split at h
          · simp at h
          · split at h
            · exact ih _ _ _ _ _ _ h
            · split at h
              · simp only [Outcome.returned.injEq] at h
                left; exact h.2.1.symm
              · exact ih _ _ _ _ _ _ h

theorem poll_check_error_logged_and_transient_witness :
    (pollAux (New neverCtx 10) neverCtx
        ⟨fun _ => 0, fun _ => (false, some (GoError.checkFailure 7)), fun _ => false⟩
        1 0 1 0
      = ⟨Outcome.running, [1], [(0, GoError.checkFailure 7)]⟩)
    ∧ ((pollAux (New neverCtx 10) ⟨some 2, GoError.canceled⟩ neverDoneSched
          3 0 1 0).outcome
        = Outcome.returned 11 (some GoError.canceled) ExitKind.loopCond
      ∧ (some GoError.canceled = none
          ∨ some GoError.canceled = some GoError.aborted
          ∨ (some GoError.canceled : Option GoError)
              = some (CtxModel.err ⟨some 2, GoError.canceled⟩))) := by
  constructor
  · have h := (poll_check_error_logged_and_transient (New neverCtx 10) neverCtx
      ⟨fun _ => 0, fun _ => (false, some (GoError.checkFailure 7)), fun _ => false⟩).1
      0 0 1 0 false (GoError.checkFailure 7)
      (by decide) (by decide) (by decide) (by decide) rfl
    rw [h]
    decide
  · exact ⟨by decide,
      (poll_check_error_logged_and_transient (New neverCtx 10)
        ⟨some 2, GoError.canceled⟩ neverDoneSched).2 3 0 1 0 11
        (some GoError.canceled) ExitKind.loopCond (by decide)⟩

/-- C6: if the root context fires strictly between the entry into the wait
and the arrival of the next tick, the `select` resolves through the root
case at the firing instant: `Poll` returns `(rf, ErrAborted)` at once and
invokes no further `check` (the returned trace has no check start). -/
theorem poll_root_fires_during_wait_exits_immediately (pl : Poller)
    (ctx : CtxModel) (sched : Schedule) (fuel now tickReady i rf : Nat)
    (hft : pl.rootCtx.fireTime = some rf)
    (hnow : now < rf)
    (hctx : ctx.firedAt now = false)
    (htick : rf < tickReady) :
    pollAux pl ctx sched (fuel + 1) now tickReady i
      = ⟨Outcome.returned rf (some GoError.aborted) ExitKind.selectRoot,
         [], []⟩ := by
  have hrt : resolveTime pl.rootCtx now tickReady = rf := by
    simp [resolveTime, hft]; omega
  have hroot_now : (pl.rootCtx.errAt now).isSome = false := by
    rw [errAt_isSome]; simp [CtxModel.firedAt, hft]; omega
  have hctx_now : (ctx.errAt now).isSome = false := by rw [errAt_isSome, hctx]
  have h1 : pl.rootCtx.firedAt rf = true := by simp [CtxModel.firedAt, hft]
  have h2 : decide (tickReady ≤ rf) = false := by simp; omega
  have hpick : selectRootPicked pl.rootCtx sched now tickReady i = true := by
    simp [selectRootPicked, hrt, h1, h2]
  simp [pollAux, hroot_now, hctx_now, hpick, hrt]

theorem poll_root_fires_during_wait_exits_immediately_witness :
    pollAux (New ⟨some 5, GoError.canceled⟩ 10) neverCtx neverDoneSched
        1 0 11 0
      = ⟨Outcome.returned 5 (some GoError.aborted) ExitKind.selectRoot,
         [], []⟩ :=
  poll_root_fires_during_wait_exits_immediately
    (New ⟨some 5, GoError.canceled⟩ 10) neverCtx neverDoneSched 0 0 11 0 5
    rfl (by decide) (by decide) (by decide)

/-- C9: `New` stores any interval without validation, and a `Poll` call on a
poller whose interval is non-positive panics as soon as the first (1 ns)
tick is consumed, because `tc.Reset(pl.interval)` is then called with a
non-positive duration. -/
theorem new_unvalidated_nonpositive_interval_panics :
    (∀ (rc : CtxModel) (iv : Int), New rc iv = ⟨rc, iv⟩)
    ∧ ∀ (pl : Poller) (ctx : CtxModel) (sched : Schedule) (fuel : Nat),
        pl.interval ≤ 0 →
        pl.rootCtx.fireTime = none →
        (ctx.errAt 0).isSome = false →
        (pollAux pl ctx sched (fuel + 1) 0 1 0).outcome = Outcome.panicked := by
  refine ⟨fun _ _ => rfl, ?_⟩
  intro pl ctx sched fuel hiv hroot hctx
  have hroot0 : (pl.rootCtx.errAt 0).isSome = false := by
    rw [errAt_isSome]; simp [CtxModel.firedAt, hroot]
  have hfired : ∀ t, pl.rootCtx.firedAt t = false := by
    intro t; simp [CtxModel.firedAt, hroot]
  have hpick : selectRootPicked pl.rootCtx sched 0 1 0 = false := by
    simp [selectRootPicked, hfired]
  simp [pollAux, hroot0, hctx, hpick, hiv]

theorem new_unvalidated_nonpositive_interval_panics_witness :
    New neverCtx (-5) = ⟨neverCtx, -5⟩
    ∧ (pollAux (New neverCtx (-5)) neverCtx neverDoneSched 1 0 1 0).outcome
        = Outcome.panicked :=
  ⟨new_unvalidated_nonpositive_interval_panics.1 neverCtx (-5),
   new_unvalidated_nonpositive_interval_panics.2 (New neverCtx (-5)) neverCtx
     neverDoneSched 0 (by decide) rfl (by decide)⟩

/-- C10: when the first `check` reports `(done = true, err = nil)`, `Poll`
returns `(elapsed, nil)` through the success path even though the root
context fired while that check was executing (and whatever the operation
context did after the wait): the success return re-reads neither context. -/
theorem poll_success_overrides_cancellation (pl : Poller) (ctx : CtxModel)
    (sched : Schedule) (fuel rf : Nat)
    (hiv : 0 < pl.interval)
    (hft : pl.rootCtx.fireTime = some rf)
    (hrf1 : 1 < rf)
    (_hrf2 : rf ≤ 1 + sched.checkDur 0)
    (hctx : (ctx.errAt 0).isSome = false)
    (hres : sched.checkRes 0 = (true, none)) :
    (pollAux pl ctx sched (fuel + 1) 0 1 0).outcome
      = Outcome.returned (1 + sched.checkDur 0) none ExitKind.success := by
  have hroot0 : (pl.rootCtx.errAt 0).isSome = false := by
    rw [errAt_isSome]; simp [CtxModel.firedAt, hft]; omega
  have hrt : resolveTime pl.rootCtx 0 1 = 1 := by
    simp [resolveTime, hft]; omega
  have h1 : pl.rootCtx.firedAt 1 = false := by
    simp [CtxModel.firedAt, hft]; omega
  have hpick : selectRootPicked pl.rootCtx sched 0 1 0 = false := by
    simp [selectRootPicked, hrt, h1]
  have hnle : ¬ pl.interval ≤ 0 := not_le.mpr hiv
  simp [pollAux, hroot0, hctx, hpick, hnle, hres, hrt]

theorem poll_success_overrides_cancellation_witness :
    (pollAux (New ⟨some 3, GoError.canceled⟩ 10)
        ⟨some 4, GoError.deadlineExceeded⟩
        ⟨fun _ => 5, fun _ => (true, none), fun _ => false⟩ 1 0 1 0).outcome
      = Outcome.returned 6 none ExitKind.success :=
  poll_success_overrides_cancellation (New ⟨some 3, GoError.canceled⟩ 10)
    ⟨some 4, GoError.deadlineExceeded⟩
    ⟨fun _ => 5, fun _ => (true, none), fun _ => false⟩ 0 3
    (by decide) rfl (by decide) (by decide) (by decide) rfl

/-- C8: the receiver's state threaded through `Poll` is returned unchanged —
the body never assigns to `rootCtx` or `interval` — and consequently any
sequence of `Poll` calls on the same poller leaves every field as it was at
construction, so calls share no mutable poller state. -/
theorem poller_fields_unchanged_by_poll (pl : Poller) :
    (∀ (ctx : CtxModel) (sched : Schedule) (fuel : Nat),
        (poll pl ctx sched fuel).2 = pl
        ∧ ((poll pl ctx sched fuel).2).rootCtx = pl.rootCtx
        ∧ ((poll pl ctx sched fuel).2).interval = pl.interval)
    ∧ ∀ calls : List (CtxModel × Schedule × Nat), pollMany pl calls = pl := by
  refine ⟨fun _ _ _ => ⟨rfl, rfl, rfl⟩, ?_⟩
  intro calls
  induction calls with
  | nil => rfl
  | cons c cs ih => exact ih

theorem poll_root_fired_returns_aborted_witness :
    (pollAux (New ⟨some 0, GoError.canceled⟩ 10) neverCtx neverDoneSched
        1 0 1 0).outcome
      = Outcome.returned 0 (some GoError.aborted) ExitKind.loopCond
    ∧ some GoError.aborted = some GoError.aborted :=
  ⟨by decide,
   poll_root_fired_returns_aborted (New ⟨some 0, GoError.canceled⟩ 10)
     neverCtx neverDoneSched 1 0 1 0 0 (some GoError.aborted) ExitKind.loopCond
     (by decide) (by decide) (by decide)⟩

theorem pollAux_ticks_no_signals (pl : Poller) (ctx : CtxModel)
    (sched : Schedule)
    (hroot : pl.rootCtx.fireTime = none) (hctx : ctx.fireTime = none)
    (hiv : 0 < pl.interval)
    (hcheck : ∀ j, (sched.checkRes j).2 = none → (sched.checkRes j).1 = false) :
    ∀ fuel now tickReady i,
      (pollAux pl ctx sched fuel now tickReady i).ticks
        = expTicks pl.interval.toNat sched.checkDur fuel (max now tickReady) i := by
  intro fuel
  induction fuel with
  | zero => intro now tickReady i; simp [pollAux, expTicks]
  | succ fuel ih =>
    intro now tickReady i
    have hroot_e : (pl.rootCtx.errAt now).isSome = false := by
      rw [errAt_isSome]; simp [CtxModel.firedAt, hroot]
    have hctx_e : (ctx.errAt now).isSome = false := by
      rw [errAt_isSome]; simp [CtxModel.firedAt, hctx]
    have hfired :
        pl.rootCtx.firedAt (resolveTime pl.rootCtx now tickReady) = false := by
      simp [CtxModel.firedAt, hroot]
    have hpick : selectRootPicked pl.rootCtx sched now tickReady i = false := by
      simp [selectRootPicked, hfired]
    have hrt : resolveTime pl.rootCtx now tickReady = max now tickReady := by
      simp [resolveTime, hroot]
    have hnle : ¬ pl.interval ≤ 0 := not_le.mpr hiv
    have harg : ∀ d : Nat,
        max (max now tickReady + d) (max now tickReady + pl.interval.toNat)
          = max now tickReady + max pl.interval.toNat d := by
      intro d; omega
    rcases hres : sched.checkRes i with ⟨d, oe⟩
    rcases oe with - | e
    · have hd : d = false := by
        have h2 := hcheck i
        rw [hres] at h2
        exact h2 rfl
      subst hd
      simp only [pollAux, hroot_e, hctx_e, hpick, hnle, hres, hrt, expTicks,
        Bool.or_self, Bool.false_eq_true, if_false, Bool.false_eq_true]
      rw [ih, harg]
    · simp only [pollAux, hroot_e, hctx_e, hpick, hnle, hres, hrt, expTicks,
        Bool.or_self, Bool.false_eq_true, if_false]
      rw [ih, harg]

/-- C2 counterexample: interval 10, every check takes 5 and reports
`(false, nil)`, no signal ever fires.  The first check starts at instant 1
and ends at instant 6, so a wait of one interval measured from its
completion would start the second check at instant 16; the run starts it at
instant 11, because `tc.Reset(pl.interval)` runs before `check` is invoked,
so the interval is measured from the previous check's start. -/
theorem poll_interval_from_completion_counterexample :
    (pollAux (New neverCtx 10) neverCtx
        ⟨fun _ => 5, fun _ => (false, none), fun _ => false⟩ 2 0 1 0).ticks
      = [1, 11]
    ∧ (11 : Nat) ≠ 1 + 5 + 10 :=
  ⟨by decide, by decide⟩

/-- C2 (amended): in a run in which neither context ever fires, the interval
is positive and no check returns `(done = true, err = nil)`, the checks
start at the instants given by `expTicks`: the first at instant 1 (the 1 ns
initial tick — effectively immediate), and each subsequent check exactly
`max interval (duration of the previous check)` after the previous check
STARTED — one interval after the previous start whenever checks are faster
than the interval, not one interval after the previous completion. -/
theorem poll_check_start_instants (pl : Poller) (ctx : CtxModel)
    (sched : Schedule)
    (hroot : pl.rootCtx.fireTime = none) (hctx : ctx.fireTime = none)
    (hiv : 0 < pl.interval)
    (hcheck : ∀ j, (sched.checkRes j).2 = none → (sched.checkRes j).1 = false) :
    ∀ fuel, (pollAux pl ctx sched fuel 0 1 0).ticks
      = expTicks pl.interval.toNat sched.checkDur fuel 1 0 := by
  intro fuel
  have h := pollAux_ticks_no_signals pl ctx sched hroot hctx hiv hcheck fuel 0 1 0
  simpa using h

theorem poll_check_start_instants_witness :
    (pollAux (New neverCtx 10) neverCtx
        ⟨fun _ => 5, fun _ => (false, none), fun _ => false⟩ 3 0 1 0).ticks
      = expTicks (10 : Int).toNat (fun _ => 5) 3 1 0
    ∧ expTicks (10 : Int).toNat (fun _ => 5) 3 1 0 = [1, 11, 21] :=
  ⟨poll_check_start_instants (New neverCtx 10) neverCtx
      ⟨fun _ => 5, fun _ => (false, none), fun _ => false⟩
      rfl rfl (by decide) (fun _ _ => rfl) 3,
   by decide⟩

/-- C5 counterexample: interval 10, the operation context fires at instant 2
with `Canceled`, the root context never fires, checks are instantaneous and
report `(false, nil)`.  The second per-iteration wait spans instants 1 to 11;
although the operation context fires at instant 2, during that wait, the
wait runs to the tick at instant 11 (a further check even starts at 11), and
`Poll` returns at instant 11, not 2: the `select` has no case for the
operation context, so its firing does not end the wait. -/
theorem poll_wait_ignores_op_signal_counterexample :
    (pollAux (New neverCtx 10) ⟨some 2, GoError.canceled⟩ neverDoneSched
        3 0 1 0).outcome
      = Outcome.returned 11 (some GoError.canceled) ExitKind.loopCond
    ∧ (pollAux (New neverCtx 10) ⟨some 2, GoError.canceled⟩ neverDoneSched
        3 0 1 0).ticks = [1, 11]
    ∧ (11 : Nat) ≠ 2 :=
  ⟨by decide, by decide, by decide⟩

/-- C5 (amended): the per-iteration wait suspends until the next tick or the
root context, whichever occurs first; the operation context is not among the
`select` cases, so even when it fires strictly during the wait the wait ends
only at the tick — the select resolves at `tickReady` and the iteration's
check still starts at `tickReady` (it is detected only at the next loop
condition). -/
theorem poll_wait_ends_only_on_tick_or_root (pl : Poller) (ctx : CtxModel)
    (sched : Schedule) (fuel now tickReady i cf : Nat)
    (hroot : pl.rootCtx.fireTime = none)
    (hiv : 0 < pl.interval)
    (hft : ctx.fireTime = some cf)
    (h1 : now < cf) (h2 : cf < tickReady) :
    resolveTime pl.rootCtx now tickReady = tickReady
    ∧ (pollAux pl ctx sched (fuel + 1) now tickReady i).ticks.head?
        = some tickReady := by
  have hr : resolveTime pl.rootCtx now tickReady = tickReady := by
    simp [resolveTime, hroot]; omega
  refine ⟨hr, ?_⟩
  have hroot_e : (pl.rootCtx.errAt now).isSome = false := by
    rw [errAt_isSome]; simp [CtxModel.firedAt, hroot]
  have hctx_e : (ctx.errAt now).isSome = false := by
    rw [errAt_isSome]; simp [CtxModel.firedAt, hft]; omega
  have hfired :
      pl.rootCtx.firedAt (resolveTime pl.rootCtx now tickReady) = false := by
    simp [CtxModel.firedAt, hroot]
  have hpick : selectRootPicked pl.rootCtx sched now tickReady i = false := by
    simp [selectRootPicked, hfired]
  have hnle : ¬ pl.interval ≤ 0 := not_le.mpr hiv
  rcases hres : sched.checkRes i with ⟨d, oe⟩
  rcases oe with - | e
  · cases d <;>
      simp [pollAux, hroot_e, hctx_e, hpick, hnle, hres, hr]
  · simp [pollAux, hroot_e, hctx_e, hpick, hnle, hres, hr]

theorem poll_wait_ends_only_on_tick_or_root_witness :
    resolveTime (Poller.rootCtx (New neverCtx 10)) 1 11 = 11
    ∧ (pollAux (New neverCtx 10) ⟨some 2, GoError.canceled⟩ neverDoneSched
        1 1 11 1).ticks.head? = some 11 :=
  poll_wait_ends_only_on_tick_or_root (New neverCtx 10)
    ⟨some 2, GoError.canceled⟩ neverDoneSched 0 1 11 1 2
    rfl (by decide) rfl (by decide) (by decide)
